import Mathlib

/-!
Verification of the kdotool script compiler (`src/main.rs`).

The program translates an ordered sequence of window-management
subcommands into a single KWin script operating over a "window stack".
This file gives a shallow embedding of

* the command-line token stream as consumed by `generate_script`
  (a model of the lexopt `Parser` restricted to the behaviour the
  source exercises),
* the compiler loop `generate_script` itself, producing an ordered list
  of lowered steps and the final script text,
* the runtime semantics of the emitted script steps (window stack,
  output lines, which windows an action fragment is applied to),

and proves the testable properties stated in the specification.
-/

set_option maxHeartbeats 1000000

namespace Kdotool

/-- An argument produced by the command-line parser.  Modelled from the
lexopt crate's `Arg`: `Short` and `Long` options are collapsed into a
single `opt` constructor because `generate_script` treats every
non-`Value` argument identically (it reports an error at once, so the
pending state a real lexopt parser would keep for short clusters or
`--opt=value` never survives to a later call). -/
inductive Arg where
  | value (s : String)
  | opt (s : String)
deriving DecidableEq

/-- State of the lexopt parser as threaded through `generate_script`:
the remaining raw arguments, plus whether `--` has been seen (after
which every raw argument is returned as a plain value). -/
structure ParserState where
  args : List String
  finished : Bool
deriving DecidableEq

/-- `next_arg_is_option` (main.rs:142-151): peek at the next raw
argument and test whether it starts with `-`; `false` at the end of the
argument list. -/
def isOptionLike (s : String) : Bool :=
  match s.data with
  | '-' :: _ => true
  | _ => false

/-- `next_arg_is_option` applied to a parser state. -/
def nextArgIsOption (ps : ParserState) : Bool :=
  match ps.args with
  | [] => false
  | a :: _ => isOptionLike a

/-- One call of lexopt's `Parser::next`, as relevant to
`generate_script`: after `--` everything is a value; a lone `-` is a
value; `--` consumes itself and yields the following raw argument as a
value; any other `-`-prefixed argument is an option token; everything
else is a value. -/
def pnext : ParserState → Option Arg × ParserState
  | ⟨[], f⟩ => (none, ⟨[], f⟩)
  | ⟨a :: rest, true⟩ => (some (Arg.value a), ⟨rest, true⟩)
  | ⟨a :: rest, false⟩ =>
    if a = "--" then
      match rest with
      | [] => (none, ⟨[], true⟩)
      | b :: rest2 => (some (Arg.value b), ⟨rest2, true⟩)
    else if a = "-" then (some (Arg.value "-"), ⟨rest, false⟩)
    else if isOptionLike a then (some (Arg.opt a), ⟨rest, false⟩)
    else (some (Arg.value a), ⟨rest, false⟩)

/-- Result of running the compiler: a successful value, a reported
error (`anyhow::Result::Err`), or a panic.  The panic constructor
records that `generate_script` calls `Option::unwrap` on the result of
`Parser::next`, which aborts the process instead of returning an error
when no argument is left. -/
inductive CompRes (α : Type) where
  | ok (a : α)
  | err (msg : String)
  | panicked
deriving DecidableEq

/-- Prepend a step to a successful compilation result, passing errors
and panics through (the shape of every `result.push_str` branch of the
compiler loop). -/
def consCompRes {α : Type} (s : α) : CompRes (List α) → CompRes (List α)
  | CompRes.ok l => CompRes.ok (s :: l)
  | CompRes.err e => CompRes.err e
  | CompRes.panicked => CompRes.panicked

/-- A window selector, as dispatched on `arg1` in main.rs:209-216. -/
inductive Sel where
  | stackAll
  | stackIndex (n : Int)
  | windowId (id : String)
deriving DecidableEq

/-- Numeric value of a list of decimal digit characters. -/
def digitsVal (l : List Char) : Nat :=
  l.foldl (fun a c => a * 10 + (c.toNat - 48)) 0

/-- All characters are decimal digits. -/
def allDigits (l : List Char) : Bool :=
  l.all (fun c => c.isDigit)

/-- Parse an unsigned run of decimal digits, with Rust's
`ParseIntError` messages for the failure cases. -/
def parseNat (l : List Char) : Except String Nat :=
  if l = [] then Except.error "invalid digit found in string"
  else if allDigits l then Except.ok (digitsVal l)
  else Except.error "invalid digit found in string"

/-- Rust `str::parse::<i32>`: an optional sign followed by decimal
digits, rejected when empty, when a non-digit appears, or when the
value does not fit in a signed 32-bit integer. -/
def parseI32 (l : List Char) : Except String Int :=
  match l with
  | [] => Except.error "cannot parse integer from empty string"
  | c :: rest =>
    if c = '+' then
      match parseNat rest with
      | Except.ok n =>
        if n ≤ 2147483647 then Except.ok (n : Int)
        else Except.error "number too large to fit in target type"
      | Except.error e => Except.error e
    else if c = '-' then
      match parseNat rest with
      | Except.ok n =>
        if n ≤ 2147483648 then Except.ok (-(n : Int))
        else Except.error "number too small to fit in target type"
      | Except.error e => Except.error e
    else
      match parseNat (c :: rest) with
      | Except.ok n =>
        if n ≤ 2147483647 then Except.ok (n : Int)
        else Except.error "number too large to fit in target type"
      | Except.error e => Except.error e

/-- Selector dispatch on `arg1` (main.rs:209-216): the literal `%@`
selects the whole stack; any other argument starting with `%` has its
remainder parsed as an `i32` stack index, propagating the parse error;
anything else is a literal window id. -/
def lower_selector (arg1 : String) : Except String Sel :=
  if arg1 = "%@" then Except.ok Sel.stackAll
  else
    match arg1.data with
    | '%' :: rest => (parseI32 rest).map Sel.stackIndex
    | _ => Except.ok (Sel.windowId arg1)

/-- The static action table `ACTIONS` (main.rs:122-132), verb to KWin
script fragment. -/
def ACTIONS : List (String × String) :=
  [ ("getwindowname", "output_result(w.caption);"),
    ("getwindowclassname", "output_result(w.resourceClass);"),
    ("getwindowgeometry", "output_result(`Window $\x7bw.internalId\x7d`); output_result(`  Position: $\x7bw.x\x7d,$\x7bw.y\x7d`); output_result(`  Geometry: $\x7bw.width\x7dx$\x7bw.height\x7d`);"),
    ("getwindowpid", "output_result(w.pid);"),
    ("windowminimize", "w.minimized = true;"),
    ("windowraise", "workspace.raiseWindow(w);"),
    ("windowclose", "w.closeWindow();"),
    ("windowkill", "w.killWindow();"),
    ("windowactivate", "workspace.setActiveWindow(w);") ]

/-- `ACTIONS.contains_key` / `ACTIONS.get`. -/
def lookupAction (v : String) : Option String :=
  (ACTIONS.find? (fun p => p.1 = v)).map (fun p => p.2)

/-- One lowered unit of script logic, 1:1 with the templates
`STEP_SEARCH`, `STEP_GETACTIVEWINDOW`, `STEP_ACTION_ON_WINDOW_ID`,
`STEP_ACTION_ON_STACK_ITEM`, `STEP_ACTION_ON_STACK_ALL` and
`STEP_LAST_OUTPUT`.  Action steps carry the verb (`step_name`), the
rendered action fragment, and the selector data the template is
rendered with. -/
inductive Step where
  | search (term : String) (matchAny : Bool)
  | getactivewindow
  | actionOnWindowId (stepName frag windowId : String)
  | actionOnStackItem (stepName frag : String) (itemIndex : Int)
  | actionOnStackAll (stepName frag : String)
  | lastOutput
deriving DecidableEq

/-- Build the action step for a verb, fragment and selector
(main.rs:209-216). -/
def mkActionStep (v frag : String) : Sel → Step
  | Sel.stackAll => Step.actionOnStackAll v frag
  | Sel.stackIndex n => Step.actionOnStackItem v frag n
  | Sel.windowId id => Step.actionOnWindowId v frag id

/-- The inner option-consuming loop of the action-verb branch
(main.rs:195-206): while the next raw argument looks like an option,
call `Parser::next`; a `Value` replaces `arg1`, any true option is the
fatal "Unexpected option" error, and a missing argument (only possible
when the lookahead saw a trailing `--`) panics through `unwrap`.

The `fuel` argument is a termination device of the embedding only:
each iteration of the source loop removes at least one raw argument,
so any fuel exceeding the number of remaining arguments computes the
loop to completion (`consumeOptLoopF_fuel_irrel`); the wrapper
`consumeOptLoop` supplies such a fuel. -/
def consumeOptLoopF : Nat → ParserState → String → CompRes (String × ParserState)
  | 0, _, _ => CompRes.panicked
  | fuel + 1, ps, arg1 =>
    if nextArgIsOption ps then
      match pnext ps with
      | (none, _) => CompRes.panicked
      | (some (Arg.opt _), _) => CompRes.err "Unexpected option"
      | (some (Arg.value v), ps') => consumeOptLoopF fuel ps' v
    else CompRes.ok (arg1, ps)

/-- The option-consuming loop with always-sufficient fuel. -/
def consumeOptLoop (ps : ParserState) (arg1 : String) :
    CompRes (String × ParserState) :=
  consumeOptLoopF (ps.args.length + 1) ps arg1

/-- The compiler loop of `generate_script` (main.rs:166-233), producing
the ordered list of lowered steps.  The boolean argument is
`last_step_is_query`; when the token stream is exhausted and the last
step was a query, the trailing `STEP_LAST_OUTPUT` step is appended.
`search` consumes exactly one further argument as the search term
(panicking via `unwrap` when there is none, erroring when it is an
option token) and always renders `STEP_SEARCH` with `match_any` false;
`getactivewindow` takes no operand; an action verb runs the
option-consuming loop with default `arg1 = "%1"` and then dispatches on
the selector; any other value token is the fatal unknown-command error;
an option token at verb position is the fatal "Unexpected option"
error.

As with `consumeOptLoopF`, `fuel` only makes the recursion structural:
every loop iteration consumes at least one raw argument, so any fuel
exceeding the remaining argument count computes the loop exactly
(`genStepsF_fuel_irrel`), and the wrapper `genSteps` supplies one. -/
def genStepsF : Nat → ParserState → Bool → CompRes (List Step)
  | 0, _, _ => CompRes.panicked
  | fuel + 1, ps, lastQ =>
    match pnext ps with
    | (none, _) => CompRes.ok (if lastQ then [Step.lastOutput] else [])
    | (some (Arg.opt _), _) => CompRes.err "Unexpected option"
    | (some (Arg.value v), ps1) =>
      if v = "search" then
        match pnext ps1 with
        | (none, _) => CompRes.panicked
        | (some (Arg.opt _), _) => CompRes.err "Missing search term"
        | (some (Arg.value t), ps2) =>
          consCompRes (Step.search t false) (genStepsF fuel ps2 true)
      else if v = "getactivewindow" then
        consCompRes Step.getactivewindow (genStepsF fuel ps1 true)
      else
        match lookupAction v with
        | some frag =>
          match consumeOptLoopF fuel ps1 "%1" with
          | CompRes.panicked => CompRes.panicked
          | CompRes.err e => CompRes.err e
          | CompRes.ok (arg1, ps2) =>
            match lower_selector arg1 with
            | Except.error e => CompRes.err e
            | Except.ok sel =>
              consCompRes (mkActionStep v frag sel) (genStepsF fuel ps2 false)
        | none => CompRes.err ("Unknown command: " ++ v)

/-- The compiler loop with always-sufficient fuel, starting from a
given parser state and `last_step_is_query` flag. -/
def genSteps (ps : ParserState) (lastQ : Bool) : CompRes (List Step) :=
  genStepsF (ps.args.length + 1) ps lastQ

/-- Compile a command sequence (the arguments remaining after the
global options) to the list of lowered steps. -/
def compileSteps (args : List String) : CompRes (List Step) :=
  genSteps ⟨args, false⟩ false

/-- The compile-time context of `generate_script` (main.rs:134-140,
without the parser, which is passed separately as the token list). -/
structure Context where
  debug : Bool
  dry_run : Bool
  kde5 : Bool
  marker : String
deriving DecidableEq

/-- `SCRIPT_HEADER` (main.rs:11-30) rendered with the marker and debug
flag.  Handlebars `\x7b\x7b\x7bx\x7d\x7d\x7d` placeholders are substituted verbatim; an
`if` block contributes its inner text exactly when the flag is true
(the template engine's handling of whitespace on the tags' own lines is
immaterial to every property proved below and is normalised here by
dropping the tag text and keeping the literal text around it). -/
def renderHeader (marker : String) (debug : Bool) : String :=
  "\nprint(\"" ++ marker ++ " START\");\n\nfunction output_debug(message) \x7b\n    "
  ++ (if debug then "\n    print(\"" ++ marker ++ " DEBUG\", message);\n    " else "")
  ++ "\n\x7d\n\nfunction output_error(message) \x7b\n    print(\"" ++ marker
  ++ " ERROR\", message);\n\x7d\n\nfunction output_result(message) \x7b\n    print(\"" ++ marker
  ++ " RESULT\", message);\n\x7d\n\nfunction run() \x7b\n    var window_stack = [];\n"

/-- `SCRIPT_FOOTER` (main.rs:32-38) rendered with the marker. -/
def renderFooter (marker : String) : String :=
  "\n\x7d\n\nrun();\n\nprint(\"" ++ marker ++ " FINISH\");\n"

/-- The `match_any` branch body of `STEP_SEARCH` (main.rs:53-59). -/
def searchAnyBlock : String :=
  "\n        for (var j=0; j<candidates.length; j++) \x7b\n            if (candidates[j].search(re) >= 0) \x7b\n                window_stack.push(w);\n                break;\n            \x7d\n        \x7d\n        "

/-- The all-fields branch body of `STEP_SEARCH` (main.rs:60-71). -/
def searchAllBlock : String :=
  "\n        var mismatch = false;\n        for (var j=0; j<candidates.length; j++) \x7b\n            if (candidates[j].search(re) < 0) \x7b\n                mismatch = true;\n                break;\n            \x7d\n        \x7d\n        if (!mismatch) \x7b\n            window_stack.push(w);\n        \x7d\n        "

/-- Render one lowered step to script text, following the templates at
main.rs:40-120.  The `STEP_SEARCH` and `STEP_ACTION_ON_WINDOW_ID`
render calls (main.rs:179, main.rs:215) do not put `kde5` into their
render context, so their `\x7b\x7b#if kde5\x7d\x7d` blocks always take the `else`
branch (`workspace.windowList()`) regardless of the compile-time kde5
flag. -/
def renderStep : Step → String
  | Step.search t ma =>
    "\n    output_debug(\"STEP search " ++ t ++ "\")\n    const re = new RegExp(\"" ++ t
    ++ "\", \"i\");\n    " ++ "\n    t = workspace.windowList();\n    "
    ++ "\n    window_stack = [];\n    for (var i=0; i<t.length; i++) \x7b\n        var w = t[i];\n        var candidates = [w.caption, w.resourceClass, w.resourceName, w.windowRole,];\n        output_debug(candidates)\n        "
    ++ (if ma then searchAnyBlock else searchAllBlock) ++ "\n    \x7d\n"
  | Step.getactivewindow =>
    "\n    output_debug(\"STEP getactivewindow\")\n    window_stack = [workspace.activeWindow];\n"
  | Step.actionOnWindowId name frag id =>
    "\n    output_debug(\"STEP " ++ name ++ "\")\n    " ++ "\n    t = workspace.windowList();\n    "
    ++ "\n    for (var i=0; i<t.length; i++) \x7b\n        var w = t[i];\n        if (w.internalId == \"" ++ id
    ++ "\") \x7b\n            " ++ frag ++ "\n            break;\n        \x7d\n    \x7d\n"
  | Step.actionOnStackItem name frag n =>
    "\n    output_debug(\"STEP " ++ name ++ "\")\n    if (window_stack.length > 0) \x7b\n        if (" ++ toString n
    ++ " > window_stack.length || " ++ toString n ++ " < 1) \x7b\n            output_error(\"Invalid window stack selection '" ++ toString n
    ++ "' (out of range)\");\n        \x7d else \x7b\n            var w = window_stack[" ++ toString n
    ++ "-1];\n            " ++ frag ++ "\n        \x7d\n    \x7d\n"
  | Step.actionOnStackAll name frag =>
    "\n    output_debug(\"STEP " ++ name ++ "\")\n    for (var i=0; i<window_stack.length; i++) \x7b\n        var w = window_stack[i];\n        " ++ frag ++ "\n    \x7d\n"
  | Step.lastOutput =>
    "\n    for (var i = 0; i < window_stack.length; ++i) \x7b\n        output_result(window_stack[i].internalId);\n    \x7d\n"

/-- `generate_script` (main.rs:153-238): header, one rendered step per
intent, the trailing output step when the last intent was a query, and
the footer; errors and the `unwrap` panic abort the compilation with no
script.  The action fragments contain no placeholders, so rendering
them with the compile-time context (main.rs:208) leaves them unchanged,
and the script text depends only on `marker` and `debug` (`kde5` is
never supplied to a render context of a template that uses it, and
`dry_run` only governs what `main` does with the returned text). -/
def generate_script (ctx : Context) (args : List String) : CompRes String :=
  match compileSteps args with
  | CompRes.ok steps =>
    CompRes.ok (renderHeader ctx.marker ctx.debug
      ++ String.join (steps.map renderStep) ++ renderFooter ctx.marker)
  | CompRes.err e => CompRes.err e
  | CompRes.panicked => CompRes.panicked

/-! ## Runtime semantics of the emitted script -/

/-- A window as observed by the emitted script: the candidate text
fields used by `search`, the stable identity token, and the fields
read by the query action fragments. -/
structure Window where
  internalId : String
  caption : String
  resourceClass : String
  resourceName : String
  windowRole : String
  pid : Int
  x : Int
  y : Int
  width : Int
  height : Int
deriving DecidableEq

/-- The scripting host's workspace: the window enumeration
(`workspace.windowList()` / `workspace.clientList()`, identical but for
the name) and the active window. -/
structure World where
  windowList : List Window
  activeWindow : Window

/-- One line printed by the running script, by channel.  `print` joins
its arguments with single spaces, so a line rendered from marker `m`
is `m <CHANNEL>` for the bare `START`/`FINISH` prints and
`m <CHANNEL> <payload>` for the helper functions. -/
inductive OutLine where
  | start
  | debug (msg : String)
  | error (msg : String)
  | result (msg : String)
  | finish
deriving DecidableEq

/-- The channel tag of a printed line. -/
def channelOf : OutLine → String
  | OutLine.start => "START"
  | OutLine.debug _ => "DEBUG"
  | OutLine.error _ => "ERROR"
  | OutLine.result _ => "RESULT"
  | OutLine.finish => "FINISH"

/-- The text of a printed line for a given marker. -/
def renderLine (marker : String) : OutLine → String
  | OutLine.start => marker ++ " START"
  | OutLine.debug m => marker ++ " DEBUG " ++ m
  | OutLine.error m => marker ++ " ERROR " ++ m
  | OutLine.result m => marker ++ " RESULT " ++ m
  | OutLine.finish => marker ++ " FINISH"

/-- `output_debug` (main.rs:14-18): its body is rendered only when the
debug flag was set at compile time, so it prints exactly when `debug`
holds. -/
def outputDebug (debug : Bool) (msg : String) : List OutLine :=
  if debug then [OutLine.debug msg] else []

/-- The candidate fields of a window tested by `STEP_SEARCH`
(main.rs:51): caption, resource class, resource name, window role. -/
def candidates (w : Window) : List String :=
  [w.caption, w.resourceClass, w.resourceName, w.windowRole]

/-- The debug payload `output_debug(candidates)` prints for a window:
a JavaScript array converts to its comma-joined elements. -/
def candidatesStr (w : Window) : String :=
  String.intercalate "," (candidates w)

/-- Lines printed by one action fragment applied to window `w`,
matching the fragment texts of `ACTIONS` (main.rs:122-132): the four
query fragments print results, the five mutation fragments print
nothing (their window-manager side effects are outside this model). -/
def fragLines (frag : String) (w : Window) : List OutLine :=
  if frag = "output_result(w.caption);" then [OutLine.result w.caption]
  else if frag = "output_result(w.resourceClass);" then [OutLine.result w.resourceClass]
  else if frag = "output_result(`Window $\x7bw.internalId\x7d`); output_result(`  Position: $\x7bw.x\x7d,$\x7bw.y\x7d`); output_result(`  Geometry: $\x7bw.width\x7dx$\x7bw.height\x7d`);" then
    [OutLine.result ("Window " ++ w.internalId),
     OutLine.result ("  Position: " ++ toString w.x ++ "," ++ toString w.y),
     OutLine.result ("  Geometry: " ++ toString w.width ++ "x" ++ toString w.height)]
  else if frag = "output_result(w.pid);" then [OutLine.result (toString w.pid)]
  else []

/-- Result of executing one step (or a list of steps): the new window
stack, the lines printed, and the `(step name, window id)` pairs
recording which windows the action fragment was applied to. -/
structure StepRes where
  stack : List Window
  lines : List OutLine
  apps : List (String × String)
deriving DecidableEq

/-- Execute one lowered step, following the step templates
(main.rs:40-120).  `mf` models `candidate.search(re) >= 0` for the
case-insensitive pattern built from the search term (regular-expression
matching itself is the host's); the world is read-only here since no
claim depends on compositor side effects. -/
def execStep (debug : Bool) (mf : String → String → Bool) (world : World)
    (stack : List Window) : Step → StepRes
  | Step.search t ma =>
    let keep : Window → Bool := fun w =>
      if ma then (candidates w).any (fun c => mf t c)
      else !((candidates w).any (fun c => !(mf t c)))
    ⟨world.windowList.filter keep,
     outputDebug debug ("STEP search " ++ t)
       ++ world.windowList.flatMap (fun w => outputDebug debug (candidatesStr w)),
     []⟩
  | Step.getactivewindow =>
    ⟨[world.activeWindow], outputDebug debug "STEP getactivewindow", []⟩
  | Step.actionOnWindowId name frag id =>
    let dl := outputDebug debug ("STEP " ++ name)
    match world.windowList.find? (fun w => w.internalId = id) with
    | some w => ⟨stack, dl ++ fragLines frag w, [(name, w.internalId)]⟩
    | none => ⟨stack, dl, []⟩
  | Step.actionOnStackItem name frag n =>
    let dl := outputDebug debug ("STEP " ++ name)
    if 0 < stack.length then
      if (stack.length : Int) < n ∨ n < 1 then
        ⟨stack,
         dl ++ [OutLine.error ("Invalid window stack selection '" ++ toString n ++ "' (out of range)")],
         []⟩
      else
        match stack.get? (n - 1).toNat with
        | some w => ⟨stack, dl ++ fragLines frag w, [(name, w.internalId)]⟩
        | none => ⟨stack, dl, []⟩
    else ⟨stack, dl, []⟩
  | Step.actionOnStackAll name frag =>
    ⟨stack,
     outputDebug debug ("STEP " ++ name) ++ stack.flatMap (fragLines frag),
     stack.map (fun w => (name, w.internalId))⟩
  | Step.lastOutput =>
    ⟨stack, stack.map (fun w => OutLine.result w.internalId), []⟩

/-- Execute a list of steps in order, threading the window stack and
concatenating printed lines and application records. -/
def execSteps (debug : Bool) (mf : String → String → Bool) (world : World) :
    List Window → List Step → StepRes
  | stack, [] => ⟨stack, [], []⟩
  | stack, s :: rest =>
    let r := execStep debug mf world stack s
    let r2 := execSteps debug mf world r.stack rest
    ⟨r2.stack, r.lines ++ r2.lines, r.apps ++ r2.apps⟩

/-- Execute a whole generated script: the header prints `START`, `run()`
starts from an empty window stack and executes the lowered steps, and
the footer prints `FINISH`. -/
def execScript (debug : Bool) (mf : String → String → Bool) (world : World)
    (steps : List Step) : List OutLine :=
  OutLine.start :: (execSteps debug mf world [] steps).lines ++ [OutLine.finish]

/-- A sample window used to instantiate theorems with hypotheses. -/
def sampleWindow : Window :=
  ⟨"id-1", "Sample", "sampleClass", "sampleName", "sampleRole", 42, 1, 2, 300, 200⟩

/-- A second sample window. -/
def sampleWindow2 : Window :=
  ⟨"id-2", "Other", "otherClass", "otherName", "otherRole", 43, 5, 6, 310, 210⟩

/-- A sample workspace. -/
def sampleWorld : World :=
  ⟨[sampleWindow, sampleWindow2], sampleWindow⟩

/-- Is a step one of the two query steps (`STEP_SEARCH`,
`STEP_GETACTIVEWINDOW`) that set `last_step_is_query`? -/
def isQueryStep : Step → Bool
  | Step.search _ _ => true
  | Step.getactivewindow => true
  | _ => false

/-- The value of `last_step_is_query` after lowering the steps of
`main`, starting from flag `q`. -/
def lastFlagOf (main : List Step) (q : Bool) : Bool :=
  match main with
  | [] => q
  | s :: rest => lastFlagOf rest (isQueryStep s)

/-- Whether the last lowered intent of `main` is a query (`false` for
an empty command sequence). -/
def isQueryLast (main : List Step) : Bool :=
  lastFlagOf main false

/-! ## Lemmas -/


lemma pnext_some_lt (ps : ParserState) (a : Arg) (ps' : ParserState)
    (h : pnext ps = (some a, ps')) : ps'.args.length < ps.args.length := by
  obtain ⟨args, fin⟩ := ps
  cases args with
  | nil => simp [pnext] at h
  | cons x rest =>
    cases fin with
    | true =>
      simp only [pnext] at h
      injection h with h1 h2
      subst h2
      simp only [List.length_cons]
      omega
    | false =>
      simp only [pnext] at h
      split at h
      · cases rest with
        | nil => simp at h
        | cons b rest2 =>
          injection h with h1 h2
          subst h2
          simp only [List.length_cons]
          omega
      · split at h
        · injection h with h1 h2
          subst h2
          simp only [List.length_cons]
          omega
        · split at h
          · injection h with h1 h2
            subst h2
            simp only [List.length_cons]
            omega
          · injection h with h1 h2
            subst h2
            simp only [List.length_cons]
            omega


lemma consumeOptLoopF_le :
    ∀ fuel ps arg1 x ps2, consumeOptLoopF fuel ps arg1 = CompRes.ok (x, ps2) →
      ps2.args.length ≤ ps.args.length := by
  intro fuel
  induction fuel with
  | zero => intro ps arg1 x ps2 h; cases h
  | succ n ih =>
    intro ps arg1 x ps2 h
    rw [consumeOptLoopF] at h
    split at h
    · split at h
      · cases h
      · cases h
      · have hlt := pnext_some_lt ps _ _ (by assumption)
        have hle := ih _ _ _ _ h
        omega
    · cases h
      exact le_refl _


lemma consumeOptLoopF_fuel_irrel :
    ∀ f1 f2 ps arg1, ps.args.length < f1 → ps.args.length < f2 →
      consumeOptLoopF f1 ps arg1 = consumeOptLoopF f2 ps arg1 := by
  intro f1
  induction f1 with
  | zero => intro f2 ps arg1 h1 h2; omega
  | succ n ih =>
    intro f2 ps arg1 h1 h2
    cases f2 with
    | zero => omega
    | succ m =>
      rw [consumeOptLoopF, consumeOptLoopF]
      split
      · rename_i hopt
        split
        · rfl
        · rfl
        · rename_i v ps' hv
          have hlt := pnext_some_lt ps _ _ hv
          exact ih m ps' v (by omega) (by omega)
      · rfl


lemma consCompRes_ok {α : Type} (s : α) (r : CompRes (List α)) (l : List α)
    (h : consCompRes s r = CompRes.ok l) :
    ∃ t, r = CompRes.ok t ∧ l = s :: t := by
  cases r with
  | ok t =>
    injection h with h1
    exact ⟨t, rfl, h1.symm⟩
  | err e => cases h
  | panicked => cases h

lemma isQueryStep_mkActionStep (v frag : String) (sel : Sel) :
    isQueryStep (mkActionStep v frag sel) = false := by
  cases sel <;> rfl

lemma mkActionStep_ne_lastOutput (v frag : String) (sel : Sel) :
    mkActionStep v frag sel ≠ Step.lastOutput := by
  cases sel <;> simp [mkActionStep]

lemma mkActionStep_ne_search (v frag t : String) (b : Bool) (sel : Sel) :
    mkActionStep v frag sel ≠ Step.search t b := by
  cases sel <;> simp [mkActionStep]

/-- Prepending one lowered (non-output, non-`match_any`) step to a
step list of the invariant shape keeps the shape, with the flag moved
past the new head. -/
lemma shape_cons_step (st : Step) (l main : List Step) (q : Bool)
    (hno : Step.lastOutput ∉ main)
    (hsf : ∀ t b, Step.search t b ∈ main → b = false)
    (hshape : l = main ++ (if lastFlagOf main (isQueryStep st) then [Step.lastOutput] else []))
    (hlo : st ≠ Step.lastOutput)
    (hsearch : ∀ t b, st = Step.search t b → b = false) :
    ∃ main2, Step.lastOutput ∉ main2 ∧
      (∀ t b, Step.search t b ∈ main2 → b = false) ∧
      st :: l = main2 ++ (if lastFlagOf main2 q then [Step.lastOutput] else []) := by
  refine ⟨st :: main, ?_, ?_, ?_⟩
  · intro hmem
    rcases List.mem_cons.mp hmem with h1 | h1
    · exact hlo h1.symm
    · exact hno h1
  · intro t b hmem
    rcases List.mem_cons.mp hmem with h1 | h1
    · exact hsearch _ _ h1.symm
    · exact hsf _ _ h1
  · rw [hshape]
    rfl

/-- Structure of every successful compilation: the produced step list
is the lowered intents (never containing `STEP_LAST_OUTPUT`, and with
`match_any` false in every search step) followed by `STEP_LAST_OUTPUT`
exactly when `last_step_is_query` ends up true. -/
lemma genStepsF_shape :
    ∀ fuel ps q steps, genStepsF fuel ps q = CompRes.ok steps →
      ∃ main, Step.lastOutput ∉ main ∧
        (∀ t b, Step.search t b ∈ main → b = false) ∧
        steps = main ++ (if lastFlagOf main q then [Step.lastOutput] else []) := by
  intro fuel
  induction fuel with
  | zero => intro ps q steps h; cases h
  | succ n ih =>
    intro ps q steps h
    rw [genStepsF] at h
    split at h
    · injection h with h1
      exact ⟨[], by simp, by simp, h1.symm⟩
    · cases h
    · split at h
      · split at h
        · cases h
        · cases h
        · obtain ⟨l, hl, hsteps⟩ := consCompRes_ok _ _ _ h
          obtain ⟨main, hno, hsf, hshape⟩ := ih _ _ _ hl
          subst hsteps
          exact shape_cons_step _ _ _ _ hno hsf hshape (by simp)
            (fun t' b' hh => by injection hh with h1 h2; exact h2.symm)
      · split at h
        · obtain ⟨l, hl, hsteps⟩ := consCompRes_ok _ _ _ h
          obtain ⟨main, hno, hsf, hshape⟩ := ih _ _ _ hl
          subst hsteps
          exact shape_cons_step _ _ _ _ hno hsf hshape (by simp)
            (fun t' b' hh => by cases hh)
        · split at h
          · split at h
            · cases h
            · cases h
            · split at h
              · cases h
              · obtain ⟨l, hl, hsteps⟩ := consCompRes_ok _ _ _ h
                obtain ⟨main, hno, hsf, hshape⟩ := ih _ _ _ hl
                subst hsteps
                exact shape_cons_step _ _ _ _ hno hsf
                  (by rw [isQueryStep_mkActionStep]; exact hshape)
                  (mkActionStep_ne_lastOutput _ _ _)
                  (fun t' b' hh => absurd hh (mkActionStep_ne_search _ _ _ _ _))
          · cases h

/-- `lastFlagOf` is determined by the last lowered step (or the
incoming flag when there is none). -/
lemma lastFlagOf_eq_getLast :
    ∀ (main : List Step) (q : Bool),
      lastFlagOf main q = (match main.getLast? with
        | some s => isQueryStep s
        | none => q) := by
  intro main
  induction main with
  | nil => intro q; rfl
  | cons s rest ih =>
    intro q
    cases rest with
    | nil => simp [lastFlagOf, List.getLast?]
    | cons s2 rest2 =>
      rw [lastFlagOf, ih, List.getLast?_cons_cons]
      rcases h2 : (s2 :: rest2).getLast? with _ | x
      · rw [List.getLast?_eq_none_iff] at h2
        cases h2
      · rfl

lemma genStepsF_fuel_irrel :
    ∀ f1 f2 ps lastQ, ps.args.length < f1 → ps.args.length < f2 →
      genStepsF f1 ps lastQ = genStepsF f2 ps lastQ := by
  intro f1
  induction f1 with
  | zero => intro f2 ps lastQ h1 h2; omega
  | succ n ih =>
    intro f2 ps lastQ h1 h2
    cases f2 with
    | zero => omega
    | succ m =>
      rw [genStepsF, genStepsF]
      split
      · rfl
      · rfl
      · rename_i v ps1 hv
        have hlt1 := pnext_some_lt ps _ _ hv
        split
        · split
          · rfl
          · rfl
          · rename_i t ps2 ht
            have hlt2 := pnext_some_lt ps1 _ _ ht
            rw [ih m ps2 true (by omega) (by omega)]
        · split
          · rw [ih m ps1 true (by omega) (by omega)]
          · split
            · rw [consumeOptLoopF_fuel_irrel n m ps1 "%1" (by omega) (by omega)]
              split
              · rfl
              · rfl
              · rename_i arg1 ps2 hc
                have hle := consumeOptLoopF_le m ps1 "%1" arg1 ps2 hc
                split
                · rfl
                · rw [ih m ps2 false (by omega) (by omega)]
            · rfl

lemma parseNat_digits (l : List Char) (h1 : l ≠ []) (h2 : allDigits l = true) :
    parseNat l = Except.ok (digitsVal l) := by
  rw [parseNat, if_neg h1, if_pos h2]

lemma parseNat_nondigit (l : List Char) (h : ∃ c ∈ l, c.isDigit = false) :
    parseNat l = Except.error "invalid digit found in string" := by
  obtain ⟨c, hc, hcd⟩ := h
  have hnall : ¬ (allDigits l = true) := by
    rw [allDigits, List.all_eq_true]
    intro hall
    have hh := hall c hc
    rw [hcd] at hh
    cases hh
  by_cases hl : l = []
  · subst hl
    rfl
  · rw [parseNat, if_neg hl, if_neg hnall]

/-- On any `%`-prefixed token other than `%@`, the selector dispatch is
exactly `parse::<i32>` of the remainder, mapped into a stack index. -/
lemma lower_selector_percent (rest : List Char) (hat : rest ≠ ['@']) :
    lower_selector (String.mk ('%' :: rest))
      = (parseI32 rest).map Sel.stackIndex := by
  have hne : String.mk ('%' :: rest) ≠ "%@" := by
    intro hh
    have hd : '%' :: rest = ['%', '@'] := congrArg String.data hh
    have hr : rest = ['@'] := by injection hd
    exact hat hr
  rw [lower_selector, if_neg hne]
  rfl

lemma head_digit_not_sign (c : Char) (t : List Char)
    (h2 : allDigits (c :: t) = true) :
    c.isDigit = true ∧ ¬ c = '+' ∧ ¬ c = '-' := by
  have hc : c.isDigit = true := by
    simp [allDigits, List.all_cons] at h2
    exact h2.1
  refine ⟨hc, ?_, ?_⟩
  · intro hh
    subst hh
    exact absurd hc (by decide)
  · intro hh
    subst hh
    exact absurd hc (by decide)

lemma parseI32_digits (l : List Char) (h1 : l ≠ []) (h2 : allDigits l = true)
    (h3 : digitsVal l ≤ 2147483647) :
    parseI32 l = Except.ok (digitsVal l : Int) := by
  cases l with
  | nil => cases h1 rfl
  | cons c t =>
    obtain ⟨_, hplus, hminus⟩ := head_digit_not_sign c t h2
    rw [parseI32, if_neg hplus, if_neg hminus,
      parseNat_digits _ (by simp) h2]
    simp [h3]

lemma parseI32_plus_digits (t : List Char) (h1 : t ≠ [])
    (h2 : allDigits t = true) (h3 : digitsVal t ≤ 2147483647) :
    parseI32 ('+' :: t) = Except.ok (digitsVal t : Int) := by
  rw [parseI32, if_pos rfl, parseNat_digits _ h1 h2]
  simp [h3]

lemma parseI32_minus_digits (t : List Char) (h1 : t ≠ [])
    (h2 : allDigits t = true) (h3 : digitsVal t ≤ 2147483648) :
    parseI32 ('-' :: t) = Except.ok (-(digitsVal t : Int)) := by
  rw [parseI32, if_neg (by decide), if_pos rfl, parseNat_digits _ h1 h2]
  simp [h3]

lemma parseI32_digits_too_large (l : List Char) (h1 : l ≠ [])
    (h2 : allDigits l = true) (h3 : 2147483647 < digitsVal l) :
    parseI32 l = Except.error "number too large to fit in target type" := by
  cases l with
  | nil => cases h1 rfl
  | cons c t =>
    obtain ⟨_, hplus, hminus⟩ := head_digit_not_sign c t h2
    rw [parseI32, if_neg hplus, if_neg hminus,
      parseNat_digits _ (by simp) h2]
    simp [show ¬ (digitsVal (c :: t) ≤ 2147483647) by omega]

lemma parseI32_plus_too_large (t : List Char) (h1 : t ≠ [])
    (h2 : allDigits t = true) (h3 : 2147483647 < digitsVal t) :
    parseI32 ('+' :: t) = Except.error "number too large to fit in target type" := by
  rw [parseI32, if_pos rfl, parseNat_digits _ h1 h2]
  simp [show ¬ (digitsVal t ≤ 2147483647) by omega]

lemma parseI32_minus_too_small (t : List Char) (h1 : t ≠ [])
    (h2 : allDigits t = true) (h3 : 2147483648 < digitsVal t) :
    parseI32 ('-' :: t) = Except.error "number too small to fit in target type" := by
  rw [parseI32, if_neg (by decide), if_pos rfl, parseNat_digits _ h1 h2]
  simp [show ¬ (digitsVal t ≤ 2147483648) by omega]

lemma parseI32_plus_err (t : List Char) (e : String)
    (h : parseNat t = Except.error e) :
    parseI32 ('+' :: t) = Except.error e := by
  rw [parseI32, if_pos rfl, h]

lemma parseI32_minus_err (t : List Char) (e : String)
    (h : parseNat t = Except.error e) :
    parseI32 ('-' :: t) = Except.error e := by
  rw [parseI32, if_neg (by decide), if_pos rfl, h]

/-- A string `%<digits>` whose digits fit in an `i32` lowers to the
stack-index selector of that value — the compiler performs no bounds
check against any stack length. -/
lemma lower_selector_digits (rest : List Char) (h1 : rest ≠ [])
    (h2 : allDigits rest = true) (h3 : digitsVal rest ≤ 2147483647) :
    lower_selector (String.mk ('%' :: rest))
      = Except.ok (Sel.stackIndex (digitsVal rest : Int)) := by
  have hat : rest ≠ ['@'] := by
    intro hh
    subst hh
    simp [allDigits] at h2
  rw [lower_selector_percent _ hat, parseI32_digits _ h1 h2 h3]
  rfl

/-- De Morgan for the `mismatch` loop of `STEP_SEARCH`: "no candidate
failed to match" is "all candidates match". -/
lemma not_any_not_eq_all {α : Type} (l : List α) (p : α → Bool) :
    (!(l.any fun x => !(p x))) = l.all p := by
  induction l with
  | nil => rfl
  | cons x t ih =>
    rw [List.any_cons, List.all_cons, ← ih]
    cases p x <;> rfl

/-- Every line printed by an action fragment is a `RESULT` line. -/
lemma fragLines_result (frag : String) (w : Window) (l : OutLine)
    (h : l ∈ fragLines frag w) : ∃ m, l = OutLine.result m := by
  rw [fragLines] at h
  split at h
  · simp at h
    exact ⟨_, h⟩
  · split at h
    · simp at h
      exact ⟨_, h⟩
    · split at h
      · simp at h
        rcases h with h | h | h
        · exact ⟨_, h⟩
        · exact ⟨_, h⟩
        · exact ⟨_, h⟩
      · split at h
        · simp at h
          exact ⟨_, h⟩
        · simp at h

/-- Lines printed by `output_debug` are `DEBUG` lines, and only appear
when the debug flag is set. -/
lemma outputDebug_mem (debug : Bool) (msg : String) (l : OutLine)
    (h : l ∈ outputDebug debug msg) : l = OutLine.debug msg ∧ debug = true := by
  rw [outputDebug] at h
  split at h
  · simp at h
    exact ⟨h, by assumption⟩
  · simp at h

/-- Classification of the lines a single step prints: a `DEBUG` line
(only with the debug flag set), an `ERROR` line, or a `RESULT` line —
never `START` or `FINISH`. -/
lemma execStep_lines (debug : Bool) (mf : String → String → Bool)
    (world : World) (stack : List Window) (s : Step) (l : OutLine)
    (h : l ∈ (execStep debug mf world stack s).lines) :
    (∃ m, l = OutLine.debug m ∧ debug = true)
      ∨ (∃ m, l = OutLine.error m) ∨ (∃ m, l = OutLine.result m) := by
  cases s with
  | search t ma =>
    simp only [execStep, List.mem_append, List.mem_flatMap] at h
    rcases h with h | ⟨w, _, h⟩
    · obtain ⟨h1, h2⟩ := outputDebug_mem _ _ _ h
      exact Or.inl ⟨_, h1, h2⟩
    · obtain ⟨h1, h2⟩ := outputDebug_mem _ _ _ h
      exact Or.inl ⟨_, h1, h2⟩
  | getactivewindow =>
    obtain ⟨h1, h2⟩ := outputDebug_mem _ _ _ h
    exact Or.inl ⟨_, h1, h2⟩
  | actionOnWindowId name frag id =>
    simp only [execStep] at h
    split at h
    · simp only [List.mem_append] at h
      rcases h with h | h
      · obtain ⟨h1, h2⟩ := outputDebug_mem _ _ _ h
        exact Or.inl ⟨_, h1, h2⟩
      · exact Or.inr (Or.inr (fragLines_result _ _ _ h))
    · obtain ⟨h1, h2⟩ := outputDebug_mem _ _ _ h
      exact Or.inl ⟨_, h1, h2⟩
  | actionOnStackItem name frag n =>
    simp only [execStep] at h
    split at h
    · split at h
      · simp only [List.mem_append, List.mem_singleton] at h
        rcases h with h | h
        · obtain ⟨h1, h2⟩ := outputDebug_mem _ _ _ h
          exact Or.inl ⟨_, h1, h2⟩
        · exact Or.inr (Or.inl ⟨_, h⟩)
      · split at h
        · simp only [List.mem_append] at h
          rcases h with h | h
          · obtain ⟨h1, h2⟩ := outputDebug_mem _ _ _ h
            exact Or.inl ⟨_, h1, h2⟩
          · exact Or.inr (Or.inr (fragLines_result _ _ _ h))
        · obtain ⟨h1, h2⟩ := outputDebug_mem _ _ _ h
          exact Or.inl ⟨_, h1, h2⟩
    · obtain ⟨h1, h2⟩ := outputDebug_mem _ _ _ h
      exact Or.inl ⟨_, h1, h2⟩
  | actionOnStackAll name frag =>
    simp only [execStep, List.mem_append, List.mem_flatMap] at h
    rcases h with h | ⟨w, _, h⟩
    · obtain ⟨h1, h2⟩ := outputDebug_mem _ _ _ h
      exact Or.inl ⟨_, h1, h2⟩
    · exact Or.inr (Or.inr (fragLines_result _ _ _ h))
  | lastOutput =>
    simp only [execStep, List.mem_map] at h
    obtain ⟨w, _, h⟩ := h
    exact Or.inr (Or.inr ⟨_, h.symm⟩)

/-- Classification of the lines a list of steps prints. -/
lemma execSteps_lines (debug : Bool) (mf : String → String → Bool)
    (world : World) :
    ∀ (steps : List Step) (stack : List Window) (l : OutLine),
      l ∈ (execSteps debug mf world stack steps).lines →
      (∃ m, l = OutLine.debug m ∧ debug = true)
        ∨ (∃ m, l = OutLine.error m) ∨ (∃ m, l = OutLine.result m) := by
  intro steps
  induction steps with
  | nil =>
    intro stack l h
    simp [execSteps] at h
  | cons s rest ih =>
    intro stack l h
    simp only [execSteps, List.mem_append] at h
    rcases h with h | h
    · exact execStep_lines _ _ _ _ _ _ h
    · exact ih _ _ h

/-! ## Claims -/

/-- C1 (code bug): the claim — action verbs skip leading option-like
tokens, then take at most one value token as selector, so that
`windowminimize %@` lowers to a single StackAll action — fails on the
code.  The selector loop (main.rs:196) runs only `while
next_arg_is_option`, i.e. only while the next raw token starts with
`-`, so a plain selector token such as `%@` is never consumed: the verb
lowers with the default selector `%1` and `%@` is then read back as a
verb, aborting compilation with `Unknown command: %@` — contradicting
the program's own `help()` text, which documents `%2`, `%@` and window
ids as `<window>` arguments of the action commands.  The verb and the
selector token are individually fine (last two conjuncts); only their
sequencing is broken. -/
theorem c1_code_bug :
    compileSteps ["windowminimize", "%@"] = CompRes.err "Unknown command: %@"
    ∧ compileSteps ["windowminimize"]
        = CompRes.ok [Step.actionOnStackItem "windowminimize" "w.minimized = true;" 1]
    ∧ lookupAction "windowminimize" = some "w.minimized = true;"
    ∧ lower_selector "%@" = Except.ok Sel.stackAll :=
  ⟨by decide, by decide, rfl, rfl⟩

/-- C2: a successful compilation produces the lowered intents followed
by the FinalOutput step exactly when the last intent is Search or
GetActiveWindow — never after an action intent — and the FinalOutput
step emits one RESULT line per stack element, in stack order. -/
theorem c2_final_output (args : List String) (steps : List Step)
    (h : compileSteps args = CompRes.ok steps) :
    (∃ main, Step.lastOutput ∉ main ∧
      steps = main ++ (if isQueryLast main then [Step.lastOutput] else []) ∧
      (Step.lastOutput ∈ steps ↔ isQueryLast main = true) ∧
      isQueryLast main = (match main.getLast? with
        | some (Step.search _ _) => true
        | some Step.getactivewindow => true
        | _ => false))
    ∧ ∀ (debug : Bool) (mf : String → String → Bool) (world : World)
        (stack : List Window),
        execStep debug mf world stack Step.lastOutput
          = ⟨stack, stack.map (fun w => OutLine.result w.internalId), []⟩ := by
  constructor
  · obtain ⟨main, hno, _, hshape⟩ := genStepsF_shape _ _ _ _ h
    refine ⟨main, hno, hshape, ?_, ?_⟩
    · rw [hshape]
      cases hq : isQueryLast main <;> simp [hq, hno] <;> exact hq
    · rw [isQueryLast, lastFlagOf_eq_getLast]
      rcases main.getLast? with _ | s
      · rfl
      · cases s <;> rfl
  · intro debug mf world stack
    rfl

/-- Witness for C2 at `search firefox`. -/
theorem c2_final_output_witness :
    ∃ main, Step.lastOutput ∉ main ∧
      [Step.search "firefox" false, Step.lastOutput]
        = main ++ (if isQueryLast main then [Step.lastOutput] else []) ∧
      (Step.lastOutput ∈ [Step.search "firefox" false, Step.lastOutput]
        ↔ isQueryLast main = true) ∧
      isQueryLast main = (match main.getLast? with
        | some (Step.search _ _) => true
        | some Step.getactivewindow => true
        | _ => false) :=
  (c2_final_output ["search", "firefox"]
    [Step.search "firefox" false, Step.lastOutput] (by decide)).1

/-- C3 (counterexample): a token starting with `%` whose remainder is
not a valid integer does not lower to `WindowId` of the literal as the
claim states — `parse::<i32>()?` (main.rs:212) propagates a parse
error, shown for the dispatch itself and end-to-end (the token reaches
the verb via `--`, the one path the broken option loop consumes a
value from). -/
theorem c3_counterexample :
    lower_selector "%x" = Except.error "invalid digit found in string"
    ∧ lower_selector "%x" ≠ Except.ok (Sel.windowId "%x")
    ∧ compileSteps ["getwindowname", "--", "%x"]
        = CompRes.err "invalid digit found in string" := by
  have h1 : lower_selector "%x" = Except.error "invalid digit found in string" := rfl
  refine ⟨h1, ?_, by decide⟩
  rw [h1]
  intro hh
  cases hh

/-- C3 (amended): `%@` maps to StackAll; `%` followed by a decimal
numeral, optionally signed with `+` or `-`, that parses as a signed
32-bit integer maps to StackIndex of its value; the default `%1` (no
selector token) maps to StackIndex 1; a token whose text does not begin
with `%` maps to WindowId of the literal; but a token beginning with
`%` whose remainder does not parse as an `i32` — empty, empty after the
sign, a non-digit anywhere after the optional sign, or a numeral out of
the `i32` range for its sign — is a compile error, not a WindowId. -/
theorem c3_amended :
    lower_selector "%@" = Except.ok Sel.stackAll
    ∧ lower_selector "%1" = Except.ok (Sel.stackIndex 1)
    ∧ (∀ rest : List Char, rest ≠ [] → allDigits rest = true →
        digitsVal rest ≤ 2147483647 →
        lower_selector (String.mk ('%' :: rest))
          = Except.ok (Sel.stackIndex (digitsVal rest : Int)))
    ∧ ((∀ rest : List Char, rest ≠ [] → allDigits rest = true →
        digitsVal rest ≤ 2147483647 →
        lower_selector (String.mk ('%' :: '+' :: rest))
          = Except.ok (Sel.stackIndex (digitsVal rest : Int)))
      ∧ (∀ rest : List Char, rest ≠ [] → allDigits rest = true →
          digitsVal rest ≤ 2147483648 →
          lower_selector (String.mk ('%' :: '-' :: rest))
            = Except.ok (Sel.stackIndex (-(digitsVal rest : Int)))))
    ∧ (∀ s : String, (∀ rest, s.data ≠ '%' :: rest) →
        lower_selector s = Except.ok (Sel.windowId s))
    ∧ (∀ rest : List Char, rest ≠ ['@'] →
        rest.head? ≠ some '+' → rest.head? ≠ some '-' →
        (∃ c ∈ rest, c.isDigit = false) →
        ∃ e, lower_selector (String.mk ('%' :: rest)) = Except.error e)
    ∧ (lower_selector "%" = Except.error "cannot parse integer from empty string"
      ∧ lower_selector "%+" = Except.error "invalid digit found in string"
      ∧ lower_selector "%-" = Except.error "invalid digit found in string")
    ∧ (∀ rest : List Char, (∃ c ∈ rest, c.isDigit = false) →
        lower_selector (String.mk ('%' :: '+' :: rest))
          = Except.error "invalid digit found in string"
        ∧ lower_selector (String.mk ('%' :: '-' :: rest))
          = Except.error "invalid digit found in string")
    ∧ ((∀ rest : List Char, rest ≠ [] → allDigits rest = true →
        2147483647 < digitsVal rest →
        lower_selector (String.mk ('%' :: rest))
          = Except.error "number too large to fit in target type")
      ∧ (∀ rest : List Char, rest ≠ [] → allDigits rest = true →
          2147483647 < digitsVal rest →
          lower_selector (String.mk ('%' :: '+' :: rest))
            = Except.error "number too large to fit in target type")
      ∧ (∀ rest : List Char, rest ≠ [] → allDigits rest = true →
          2147483648 < digitsVal rest →
          lower_selector (String.mk ('%' :: '-' :: rest))
            = Except.error "number too small to fit in target type")) := by
  have hplusat : ∀ t : List Char, '+' :: t ≠ ['@'] := by
    intro t hh
    injection hh with hc _
    exact absurd hc (by decide)
  have hminusat : ∀ t : List Char, '-' :: t ≠ ['@'] := by
    intro t hh
    injection hh with hc _
    exact absurd hc (by decide)
  have hdigat : ∀ t : List Char, allDigits t = true → t ≠ ['@'] := by
    intro t h2 hh
    subst hh
    simp [allDigits] at h2
  refine ⟨rfl, rfl, lower_selector_digits, ⟨?_, ?_⟩, ?_, ?_, ⟨rfl, rfl, rfl⟩,
    ?_, ⟨?_, ?_, ?_⟩⟩
  · intro rest h1 h2 h3
    rw [lower_selector_percent _ (hplusat rest),
      parseI32_plus_digits _ h1 h2 h3]
    rfl
  · intro rest h1 h2 h3
    rw [lower_selector_percent _ (hminusat rest),
      parseI32_minus_digits _ h1 h2 h3]
    rfl
  · intro s hs
    have hne : s ≠ "%@" := by
      intro hh
      subst hh
      exact hs ['@'] rfl
    rw [lower_selector, if_neg hne]
    split
    · rename_i rest heq
      exact absurd heq (hs rest)
    · rfl
  · intro rest hat hplus hminus hbad
    obtain ⟨c, hcmem, hcd⟩ := hbad
    rw [lower_selector_percent _ hat]
    cases rest with
    | nil => exact absurd hcmem (List.not_mem_nil c)
    | cons c0 t =>
      have h1 : ¬ c0 = '+' := fun hh => hplus (by rw [hh]; rfl)
      have h2 : ¬ c0 = '-' := fun hh => hminus (by rw [hh]; rfl)
      rw [parseI32, if_neg h1, if_neg h2,
        parseNat_nondigit _ ⟨c, hcmem, hcd⟩]
      exact ⟨_, rfl⟩
  · intro rest hbad
    constructor
    · rw [lower_selector_percent _ (hplusat rest),
        parseI32_plus_err _ _ (parseNat_nondigit _ hbad)]
      rfl
    · rw [lower_selector_percent _ (hminusat rest),
        parseI32_minus_err _ _ (parseNat_nondigit _ hbad)]
      rfl
  · intro rest h1 h2 h3
    rw [lower_selector_percent _ (hdigat rest h2),
      parseI32_digits_too_large _ h1 h2 h3]
    rfl
  · intro rest h1 h2 h3
    rw [lower_selector_percent _ (hplusat rest),
      parseI32_plus_too_large _ h1 h2 h3]
    rfl
  · intro rest h1 h2 h3
    rw [lower_selector_percent _ (hminusat rest),
      parseI32_minus_too_small _ h1 h2 h3]
    rfl

/-- Witness for C3's amended claim at `%42`, at the signed numerals
`%+7` and `%-3`, and at the out-of-range `%2147483648`. -/
theorem c3_amended_witness :
    lower_selector (String.mk ['%', '4', '2'])
      = Except.ok (Sel.stackIndex (digitsVal ['4', '2'] : Int))
    ∧ lower_selector (String.mk ['%', '+', '7'])
      = Except.ok (Sel.stackIndex (digitsVal ['7'] : Int))
    ∧ lower_selector (String.mk ['%', '-', '3'])
      = Except.ok (Sel.stackIndex (-(digitsVal ['3'] : Int)))
    ∧ lower_selector (String.mk ['%', '2', '1', '4', '7', '4', '8', '3', '6', '4', '8'])
      = Except.error "number too large to fit in target type" :=
  ⟨c3_amended.2.2.1 ['4', '2'] (by decide) (by decide) (by decide),
   c3_amended.2.2.2.1.1 ['7'] (by decide) (by decide) (by decide),
   c3_amended.2.2.2.1.2 ['3'] (by decide) (by decide) (by decide),
   c3_amended.2.2.2.2.2.2.2.2.1 ['2', '1', '4', '7', '4', '8', '3', '6', '4', '8']
     (by decide) (by decide) (by decide)⟩

/-- C4 (code bug): when `search` is the final token, compilation does
not report the "missing search term" error the claim (and spec)
describe — it crashes: main.rs:175 calls `.unwrap()` on the `None`
returned by `Parser::next`.  The "Missing search term" error is
reachable only when a token follows and is an option. -/
theorem c4_code_bug :
    compileSteps ["search"] = CompRes.panicked
    ∧ compileSteps ["search", "-x"] = CompRes.err "Missing search term" :=
  ⟨by decide, by decide⟩

/-- C5: a value token in verb position that is not `search`, not
`getactivewindow` and not in the action catalog aborts compilation with
an error naming that token, and no aborted compilation ever yields
script text. -/
theorem c5_unknown_verb (ps ps1 : ParserState) (q : Bool) (v : String)
    (h : pnext ps = (some (Arg.value v), ps1))
    (h1 : v ≠ "search") (h2 : v ≠ "getactivewindow")
    (h3 : lookupAction v = none) :
    genSteps ps q = CompRes.err ("Unknown command: " ++ v)
    ∧ ∀ (ctx : Context) (args : List String) (e : String),
        compileSteps args = CompRes.err e →
        ∀ s, generate_script ctx args ≠ CompRes.ok s := by
  constructor
  · rw [genSteps, genStepsF, h]
    simp [h1, h2, h3]
  · intro ctx args e he s
    rw [generate_script, he]
    simp

/-- Witness for C5 at the spec's example `foobar`. -/
theorem c5_unknown_verb_witness :
    genSteps ⟨["foobar"], false⟩ false
      = CompRes.err ("Unknown command: " ++ "foobar") :=
  (c5_unknown_verb ⟨["foobar"], false⟩ ⟨[], false⟩ false "foobar" (by decide)
    (by decide) (by decide) rfl).1

/-- C6: executing an action on stack index `n` with a non-empty stack:
out of range (`n < 1` or `n >` length) prints exactly one ERROR line,
applies the fragment to no window, leaves the stack unchanged, and the
remaining steps still execute unchanged; in range, the fragment is
applied to element `n − 1`.  The bound is checked only here, at script
execution time: every in-`i32`-range numeral selector (including `%0`
or indices beyond any stack) compiles to a StackIndex step. -/
theorem c6_stack_item (name frag : String) (n : Int) (stack : List Window)
    (debug : Bool) (mf : String → String → Bool) (world : World)
    (hne : stack ≠ []) :
    ((n < 1 ∨ (stack.length : Int) < n) →
      execStep debug mf world stack (Step.actionOnStackItem name frag n)
        = ⟨stack,
           outputDebug debug ("STEP " ++ name)
             ++ [OutLine.error ("Invalid window stack selection '" ++ toString n
                  ++ "' (out of range)")],
           []⟩
      ∧ ∀ rest,
          execSteps debug mf world stack (Step.actionOnStackItem name frag n :: rest)
            = ⟨(execSteps debug mf world stack rest).stack,
               (outputDebug debug ("STEP " ++ name)
                 ++ [OutLine.error ("Invalid window stack selection '" ++ toString n
                      ++ "' (out of range)")])
                 ++ (execSteps debug mf world stack rest).lines,
               (execSteps debug mf world stack rest).apps⟩)
    ∧ (1 ≤ n → n ≤ (stack.length : Int) →
        ∃ w, stack.get? (n - 1).toNat = some w ∧
          execStep debug mf world stack (Step.actionOnStackItem name frag n)
            = ⟨stack, outputDebug debug ("STEP " ++ name) ++ fragLines frag w,
               [(name, w.internalId)]⟩)
    ∧ (∀ digits : List Char, digits ≠ [] → allDigits digits = true →
        digitsVal digits ≤ 2147483647 →
        lower_selector (String.mk ('%' :: digits))
          = Except.ok (Sel.stackIndex (digitsVal digits : Int))) := by
  have h0 : 0 < stack.length := List.length_pos.mpr hne
  refine ⟨?_, ?_, lower_selector_digits⟩
  · intro hor
    have hstep : execStep debug mf world stack (Step.actionOnStackItem name frag n)
        = ⟨stack,
           outputDebug debug ("STEP " ++ name)
             ++ [OutLine.error ("Invalid window stack selection '" ++ toString n
                  ++ "' (out of range)")],
           []⟩ := by
      simp only [execStep]
      rw [if_pos h0, if_pos (Or.symm hor)]
    exact ⟨hstep, fun rest => by simp [execSteps, hstep]⟩
  · intro hge hle
    have hidx : (n - 1).toNat < stack.length := by omega
    refine ⟨stack.get ⟨(n - 1).toNat, hidx⟩, List.get?_eq_get hidx, ?_⟩
    simp only [execStep]
    rw [if_pos h0, if_neg (show ¬((stack.length : Int) < n ∨ n < 1) by omega),
      List.get?_eq_get hidx]

/-- Witness for C6: index 5 on a one-element stack prints exactly the
ERROR line. -/
theorem c6_stack_item_witness :
    execStep false (fun _ _ => true) sampleWorld [sampleWindow]
      (Step.actionOnStackItem "getwindowname" "output_result(w.caption);" 5)
      = ⟨[sampleWindow],
         [OutLine.error "Invalid window stack selection '5' (out of range)"], []⟩ := by
  have h := (c6_stack_item "getwindowname" "output_result(w.caption);" 5 [sampleWindow]
    false (fun _ _ => true) sampleWorld (by simp)).1 (Or.inr (by decide))
  rw [h.1]
  decide

/-- C7: every search step reachable from the command grammar carries
`match_any = false`, and such a step replaces the window stack with
exactly the enumerated windows all four of whose candidate fields
match, in enumeration order (a sublist of the enumeration); the
any-field branch is unreachable from the CLI. -/
theorem c7_search (args : List String) (steps : List Step) (t : String) (b : Bool)
    (h : compileSteps args = CompRes.ok steps) (hs : Step.search t b ∈ steps) :
    b = false
    ∧ ∀ (debug : Bool) (mf : String → String → Bool) (world : World)
        (stack : List Window),
        (execStep debug mf world stack (Step.search t b)).stack
          = world.windowList.filter (fun w => (candidates w).all (fun c => mf t c))
        ∧ (∀ w, w ∈ (execStep debug mf world stack (Step.search t b)).stack ↔
              (w ∈ world.windowList ∧ ∀ c ∈ candidates w, mf t c = true))
        ∧ List.Sublist (execStep debug mf world stack (Step.search t b)).stack
            world.windowList := by
  have hb : b = false := by
    obtain ⟨main, _, hsf, hshape⟩ := genStepsF_shape _ _ _ _ h
    rw [hshape] at hs
    rcases List.mem_append.mp hs with h1 | h1
    · exact hsf _ _ h1
    · split at h1 <;> simp at h1
  subst hb
  refine ⟨rfl, ?_⟩
  intro debug mf world stack
  have hstack : (execStep debug mf world stack (Step.search t false)).stack
      = world.windowList.filter (fun w => (candidates w).all (fun c => mf t c)) := by
    simp only [execStep, Bool.false_eq_true, if_false]
    congr 1
    funext w
    exact not_any_not_eq_all _ _
  refine ⟨hstack, ?_, ?_⟩
  · intro w
    rw [hstack, List.mem_filter]
    simp [List.all_eq_true]
  · rw [hstack]
    exact List.filter_sublist _

/-- Witness for C7 at `search x` over the sample workspace with an
always-matching pattern. -/
theorem c7_search_witness :
    List.Sublist
      (execStep false (fun _ _ => true) sampleWorld [] (Step.search "x" false)).stack
      sampleWorld.windowList :=
  ((c7_search ["search", "x"] [Step.search "x" false, Step.lastOutput] "x" false
    (by decide) (List.mem_cons_self _ _)).2 false (fun _ _ => true) sampleWorld []).2.2

/-- C8: the execution of a generated script prints `START`, then lines
that are each a `DEBUG`, `ERROR` or `RESULT` line, then `FINISH`; every
line's channel is one of the five fixed values; every rendered line
begins with the exact marker; and `DEBUG` lines can only appear when
the compile-time debug flag was set. -/
theorem c8_output_protocol (args : List String) (steps : List Step)
    (marker : String) (debug : Bool) (mf : String → String → Bool) (world : World)
    (h : compileSteps args = CompRes.ok steps) :
    (∃ body, execScript debug mf world steps
        = OutLine.start :: body ++ [OutLine.finish]
      ∧ OutLine.start ∉ body ∧ OutLine.finish ∉ body)
    ∧ (∀ l : OutLine,
        channelOf l ∈ (["START", "DEBUG", "ERROR", "RESULT", "FINISH"] : List String))
    ∧ (∀ l ∈ execScript debug mf world steps,
        ∃ rest, renderLine marker l = marker ++ rest)
    ∧ (debug = false → ∀ l ∈ execScript debug mf world steps,
        ∀ m, l ≠ OutLine.debug m) := by
  refine ⟨⟨(execSteps debug mf world [] steps).lines, rfl, ?_, ?_⟩, ?_, ?_, ?_⟩
  · intro hmem
    rcases execSteps_lines _ _ _ _ _ _ hmem with ⟨m, hm, _⟩ | ⟨m, hm⟩ | ⟨m, hm⟩ <;>
      cases hm
  · intro hmem
    rcases execSteps_lines _ _ _ _ _ _ hmem with ⟨m, hm, _⟩ | ⟨m, hm⟩ | ⟨m, hm⟩ <;>
      cases hm
  · intro l
    cases l <;> simp [channelOf]
  · intro l _
    cases l with
    | start => exact ⟨" START", rfl⟩
    | debug m => exact ⟨" DEBUG " ++ m, by rw [renderLine, String.append_assoc]⟩
    | error m => exact ⟨" ERROR " ++ m, by rw [renderLine, String.append_assoc]⟩
    | result m => exact ⟨" RESULT " ++ m, by rw [renderLine, String.append_assoc]⟩
    | finish => exact ⟨" FINISH", rfl⟩
  · intro hdbg l hmem m
    rw [execScript] at hmem
    rcases List.mem_cons.mp hmem with rfl | hmem
    · intro hh
      cases hh
    · rcases List.mem_append.mp hmem with hmem | hmem
      · rcases execSteps_lines _ _ _ _ _ _ hmem with ⟨m2, hm, hfl⟩ | ⟨m2, hm⟩ | ⟨m2, hm⟩
        · rw [hdbg] at hfl
          cases hfl
        · rw [hm]
          intro hh
          cases hh
        · rw [hm]
          intro hh
          cases hh
      · rw [List.mem_singleton.mp hmem]
        intro hh
        cases hh

/-- Witness for C8 at `getactivewindow` with the debug flag off. -/
theorem c8_output_protocol_witness :
    ∃ body, execScript false (fun _ _ => true) sampleWorld
        [Step.getactivewindow, Step.lastOutput]
      = OutLine.start :: body ++ [OutLine.finish]
      ∧ OutLine.start ∉ body ∧ OutLine.finish ∉ body :=
  (c8_output_protocol ["getactivewindow"] [Step.getactivewindow, Step.lastOutput]
    "m" false (fun _ _ => true) sampleWorld (by decide)).1

/-- C9: script generation is deterministic — equal token sequences with
equal marker, debug flag and target-environment variant produce
byte-identical script text (in particular the remaining context field,
`dry_run`, does not influence the text). -/
theorem c9_deterministic (c1 c2 : Context) (args1 args2 : List String)
    (hm : c1.marker = c2.marker) (hd : c1.debug = c2.debug)
    (hk : c1.kde5 = c2.kde5) (ha : args1 = args2) :
    generate_script c1 args1 = generate_script c2 args2 := by
  subst ha
  rw [generate_script, generate_script, hm, hd]

/-- Witness for C9: two contexts differing only in `dry_run`. -/
theorem c9_deterministic_witness :
    generate_script ⟨true, false, false, "m"⟩ ["getactivewindow"]
      = generate_script ⟨true, true, false, "m"⟩ ["getactivewindow"] :=
  c9_deterministic _ _ _ _ rfl rfl rfl rfl

/-- C10: an action on a stack index executed while the window stack is
empty is a silent no-op for every index `n`: no ERROR line, no window
receives the fragment, the stack stays empty (only the unconditional
STEP debug trace is printed when the debug flag is on). -/
theorem c10_empty_stack_noop (name frag : String) (n : Int) (debug : Bool)
    (mf : String → String → Bool) (world : World) :
    execStep debug mf world [] (Step.actionOnStackItem name frag n)
      = ⟨[], outputDebug debug ("STEP " ++ name), []⟩ := by
  rfl

end Kdotool
